import Mathlib

/-!
Verification of the `bracketsjdk` node domain (src/node/bracketsjdk.js):
a single-slot child-process supervisor (`run`, `writeToStdin`,
`killProcess`, the per-process exit listener) and a compiler gateway
(`compileFiles`, `createDir`, `emptyDir`).

The supervisor is embedded as a small-step state machine.  A state holds
the `currentProcess` slot (a pid or `none`), the list of spawned process
records — each carrying the exit listeners that were attached to it, in
attachment order, exactly as node's `process.on("exit", ...)` accumulates
them — and an ordered observation trace recording every emitted domain
event, every kill-signal request, and every stdin write.  The environment
drives the machine through `Act`ions: calls arriving from the editor side
(`run`, `writeToStdin`, `killProcess`) and asynchronous exit notifications
from the OS (`procExit`), which fire a process's exit listeners in order,
each listener possibly re-entering `run` (line 88 of the source).

The compiler gateway is embedded over an abstract flat filesystem
(directory path ↦ list of entries).  The external `javac` invocation and
the platform shell commands for directory management are collaborators
per the source's documented contracts: `javac` is an oracle parameter
that transforms the filesystem and either succeeds or fails with a
diagnostic text; `createDir` is create-if-absent with "already exists"
errors swallowed (lines 45-57); `emptyDir` clears a directory's entries
while keeping the directory itself (lines 64-74, the documented intent
of `rm -rf "dir"*` with a trailing slash and of `rmdir /S /Q` run with
the directory as cwd).
-/

namespace BracketsJdk

/-- A domain event emitted through `_domainManager.emitEvent("bracketsjdk", ...)`. -/
inductive Ev where
  | log (text : String)
  | output (text : String)
  | error (text : String)
deriving DecidableEq

/-- One entry of the supervisor's observation trace: a domain event, a
kill-signal request (`process.kill` / `taskkill`), or a write to a child's
stdin. -/
inductive Obs where
  | ev (e : Ev)
  | signal (pid : Nat)
  | stdin (pid : Nat) (text : String)
deriving DecidableEq

/-- An exit listener attached to a child process.  `clearSlot pid` is the
listener installed at spawn time (source lines 113-120): it clears
`currentProcess` under the identity guard and emits the exit log and the
newline separator.  `rerun dir cls` is the listener attached by a `run`
call that found a process live (source lines 87-89): it re-invokes `run`
with the requested pair. -/
inductive Listener where
  | clearSlot (pid : Nat)
  | rerun (dir cls : String)
deriving DecidableEq

/-- The record of one spawned child process: its pid, the working
directory and class name it was launched with, its exit listeners in
attachment order, and whether its exit notification has fired. -/
structure ProcRec where
  pid : Nat
  dir : String
  cls : String
  listeners : List Listener
  exited : Bool
deriving DecidableEq

/-- The supervisor's state: the `currentProcess` slot, all spawned
process records, the observation trace, and the next fresh pid. -/
structure SupState where
  current : Option Nat
  procs : List ProcRec
  obs : List Obs
  nextPid : Nat
deriving DecidableEq

/-- Initial state: no process ever spawned, nothing observed. -/
def initState : SupState := ⟨none, [], [], 0⟩

/-- `killProcess` (source lines 143-156): no-op when no process is
running; otherwise emits an "output" event holding a single newline and
requests a kill signal for the current process (SIGINT, or `taskkill`
on win32).  The handle is not cleared. -/
def killProcess (s : SupState) : SupState :=
  match s.current with
  | none => s
  | some p => { s with obs := s.obs ++ [Obs.ev (Ev.output "\n"), Obs.signal p] }

/-- Append an exit listener to the record of process `p`, as
`currentProcess.on("exit", ...)` does. -/
def attachListener (p : Nat) (l : Listener) (procs : List ProcRec) : List ProcRec :=
  procs.map (fun r => if r.pid = p then { r with listeners := r.listeners ++ [l] } else r)

/-- `run` (source lines 82-124).  If a process is live: send it the kill
signal via `killProcess`, attach a `rerun` exit listener carrying the
requested pair, and return.  Otherwise: emit the "Running class ..." log,
spawn a fresh child (with its `clearSlot` exit listener installed), and
record it as current. -/
def run (dir cls : String) (s : SupState) : SupState :=
  match s.current with
  | some p =>
      let s1 := killProcess s
      { s1 with procs := attachListener p (Listener.rerun dir cls) s1.procs }
  | none =>
      { s with
        obs := s.obs ++ [Obs.ev (Ev.log ("Running class " ++ cls ++ "..."))],
        procs := s.procs ++ [⟨s.nextPid, dir, cls, [Listener.clearSlot s.nextPid], false⟩],
        current := some s.nextPid,
        nextPid := s.nextPid + 1 }

/-- `writeToStdin` (source lines 132-137): no-op when no process is
running; otherwise writes the text, unaltered, to the current process's
stdin. -/
def writeToStdin (input : String) (s : SupState) : SupState :=
  match s.current with
  | none => s
  | some p => { s with obs := s.obs ++ [Obs.stdin p input] }

/-- Execute one exit listener.  `clearSlot p` is the spawn-time listener
body (source lines 113-120): clear `currentProcess` only if the exiting
process is still the recorded one, then emit the exit log and a newline
"output" event.  `rerun dir cls` re-enters `run` (source line 88). -/
def runListener (code : Int) (s : SupState) : Listener → SupState
  | Listener.clearSlot p =>
      let s1 := if s.current = some p then { s with current := none } else s
      { s1 with obs := s1.obs ++
          [Obs.ev (Ev.log ("Java exited with code: " ++ toString code)),
           Obs.ev (Ev.output "\n")] }
  | Listener.rerun dir cls => run dir cls s

/-- Mark the record of process `p` as exited. -/
def markExited (p : Nat) (procs : List ProcRec) : List ProcRec :=
  procs.map (fun r => if r.pid = p then { r with exited := true } else r)

/-- The exit notification for process `p`: fires at most once per
process (node emits "exit" once); marks the record exited and runs its
attached listeners in attachment order. -/
def fireExit (p : Nat) (code : Int) (s : SupState) : SupState :=
  match s.procs.find? (fun r => r.pid == p) with
  | none => s
  | some r =>
      if r.exited then s
      else r.listeners.foldl (runListener code) { s with procs := markExited p s.procs }

/-- An action the environment can perform: an editor-side call or an
asynchronous OS exit notification. -/
inductive Act where
  | callRun (dir cls : String)
  | callWrite (input : String)
  | callKill
  | procExit (pid : Nat) (code : Int)

/-- One event-loop step. -/
def step (s : SupState) : Act → SupState
  | Act.callRun d c => run d c s
  | Act.callWrite t => writeToStdin t s
  | Act.callKill => killProcess s
  | Act.procExit p code => fireExit p code s

/-- The state reached from the initial state by a list of actions. -/
def exec (acts : List Act) : SupState :=
  acts.foldl step initState

/-! ## Compiler gateway -/

/-- An abstract flat filesystem: each existing directory path paired with
the list of entries it contains. -/
def FS := List (String × List String)

/-- Look up a directory in the filesystem. -/
def fsLookup (d : String) : List (String × List String) → Option (List String)
  | [] => none
  | e :: rest => if e.1 = d then some e.2 else fsLookup d rest

/-- `createDir` (source lines 45-57): create the directory if absent;
when it already exists the shell command fails and the error is
swallowed, leaving the filesystem unchanged. -/
def createDir (d : String) (fs : List (String × List String)) : List (String × List String) :=
  match fsLookup d fs with
  | some _ => fs
  | none => (d, []) :: fs

/-- `emptyDir` (source lines 64-74): delete the contents of the
directory without deleting the directory itself; tolerates an absent or
empty directory. -/
def emptyDir (d : String) (fs : List (String × List String)) : List (String × List String) :=
  fs.map (fun e => if e.1 = d then (e.1, []) else e)

/-- The compiler gateway's state: the filesystem and the events emitted
so far. -/
structure CState where
  fs : List (String × List String)
  events : List Ev
deriving DecidableEq

/-- The external `javac` invocation, an opaque collaborator: given the
file list, the output directory and the filesystem, it returns the
updated filesystem and either `none` (exit code 0) or `some stderr`
(non-zero exit with its captured error stream). -/
def Javac := List String → String → List (String × List String) →
  List (String × List String) × Option String

/-- `compileFiles` (source lines 17-38): fail at once on an empty file
list; otherwise create the output directory, empty it, emit the
"Compiling..." log, and invoke `javac`.  On success emit "Done." and
return `true`; on failure emit an "error" event carrying the compiler's
stderr and return `false`. -/
def compileFiles (javac : Javac) (filePaths : List String) (outputPath : String)
    (s : CState) : Bool × CState :=
  if filePaths.length = 0 then (false, s)
  else
    let fs1 := createDir outputPath s.fs
    let fs2 := emptyDir outputPath fs1
    let ev1 := s.events ++ [Ev.log "Compiling..."]
    match javac filePaths outputPath fs2 with
    | (fs3, none) => (true, ⟨fs3, ev1 ++ [Ev.log "Done."]⟩)
    | (fs3, some stderr) => (false, ⟨fs3, ev1 ++ [Ev.error stderr]⟩)

/-! ## Supervisor invariant -/

/-- The supervisor's state invariant: pids are below the fresh counter,
pids are pairwise distinct, every non-exited process is the one recorded
in the `currentProcess` slot, and a `clearSlot` listener only ever sits
in the listener list of its own process (it is installed exactly once,
at spawn time). -/
def Inv (s : SupState) : Prop :=
  (∀ r ∈ s.procs, r.pid < s.nextPid)
  ∧ (s.procs.map ProcRec.pid).Nodup
  ∧ (∀ r ∈ s.procs, r.exited = false → s.current = some r.pid)
  ∧ (∀ r ∈ s.procs, ∀ q, Listener.clearSlot q ∈ r.listeners → q = r.pid)

/-- Process `p` has been spawned (its pid is below the counter) and
every record carrying pid `p` is marked exited. -/
def DeadPid (p : Nat) (s : SupState) : Prop :=
  p < s.nextPid ∧ ∀ r ∈ s.procs, r.pid = p → r.exited = true

/-! ## Filesystem preparation lemmas -/

theorem fsLookup_emptyDir_self (d : String) (fs : List (String × List String)) :
    fsLookup d (emptyDir d fs) = (fsLookup d fs).map (fun _ => []) := by
  induction fs with
  | nil => rfl
  | cons e rest ih =>
      by_cases h : e.1 = d
      · simp [emptyDir, fsLookup, h]
      · simp only [emptyDir, List.map] at ih ⊢
        rw [if_neg h]
        simp only [fsLookup, if_neg h]
        exact ih

theorem fsLookup_emptyDir_other (d d0 : String) (h : d ≠ d0)
    (fs : List (String × List String)) :
    fsLookup d (emptyDir d0 fs) = fsLookup d fs := by
  induction fs with
  | nil => rfl
  | cons e rest ih =>
      by_cases he : e.1 = d0
      · simp only [emptyDir, List.map, if_pos he] at ih ⊢
        rw [fsLookup, fsLookup, if_neg, if_neg]
        · exact ih
        · rw [he]; exact fun hc => h hc.symm
        · rw [he]; exact fun hc => h hc.symm
      · simp only [emptyDir, List.map, if_neg he] at ih ⊢
        rw [fsLookup, fsLookup]
        by_cases hd : e.1 = d
        · rw [if_pos hd, if_pos hd]
        · rw [if_neg hd, if_neg hd]; exact ih

theorem fsLookup_createDir_self (d : String) (fs : List (String × List String)) :
    ∃ es, fsLookup d (createDir d fs) = some es := by
  unfold createDir
  cases h : fsLookup d fs with
  | some es => exact ⟨es, h⟩
  | none => exact ⟨[], by simp [fsLookup]⟩

theorem fsLookup_createDir_other (d d0 : String) (h : d ≠ d0)
    (fs : List (String × List String)) :
    fsLookup d (createDir d0 fs) = fsLookup d fs := by
  unfold createDir
  cases fsLookup d0 fs with
  | some es => rfl
  | none => rw [fsLookup, if_neg (fun hc : d0 = d => h hc.symm)]

theorem fsLookup_prepared (d : String) (fs : List (String × List String)) :
    fsLookup d (emptyDir d (createDir d fs)) = some [] := by
  obtain ⟨es, he⟩ := fsLookup_createDir_self d fs
  rw [fsLookup_emptyDir_self, he]
  rfl

/-! ## Supervisor step lemmas -/

theorem run_live (d c : String) (s : SupState) (p : Nat) (h : s.current = some p) :
    run d c s = { s with
      obs := s.obs ++ [Obs.ev (Ev.output "\n"), Obs.signal p],
      procs := attachListener p (Listener.rerun d c) s.procs } := by
  unfold run killProcess
  rw [h]

theorem run_idle (d c : String) (s : SupState) (h : s.current = none) :
    run d c s = { s with
      obs := s.obs ++ [Obs.ev (Ev.log ("Running class " ++ c ++ "..."))],
      procs := s.procs ++ [⟨s.nextPid, d, c, [Listener.clearSlot s.nextPid], false⟩],
      current := some s.nextPid,
      nextPid := s.nextPid + 1 } := by
  unfold run
  rw [h]

theorem attachListener_map_pid (p : Nat) (l : Listener) (procs : List ProcRec) :
    (attachListener p l procs).map ProcRec.pid = procs.map ProcRec.pid := by
  unfold attachListener
  rw [List.map_map]
  apply List.map_congr_left
  intro r _
  by_cases h : r.pid = p <;> simp [h]

theorem attachListener_mem (p : Nat) (l : Listener) (procs : List ProcRec)
    (r' : ProcRec) (h : r' ∈ attachListener p l procs) :
    ∃ r ∈ procs, r'.pid = r.pid ∧ r'.exited = r.exited ∧
      ∀ q, Listener.clearSlot q ∈ r'.listeners →
        Listener.clearSlot q ∈ r.listeners ∨ Listener.clearSlot q = l := by
  unfold attachListener at h
  rcases List.mem_map.mp h with ⟨r, hr, hEq⟩
  refine ⟨r, hr, ?_⟩
  by_cases hp : r.pid = p
  · rw [if_pos hp] at hEq
    subst hEq
    refine ⟨rfl, rfl, fun q hq => ?_⟩
    rcases List.mem_append.mp hq with hq | hq
    · exact Or.inl hq
    · exact Or.inr (List.mem_singleton.mp hq)
  · rw [if_neg hp] at hEq
    subst hEq
    exact ⟨rfl, rfl, fun q hq => Or.inl hq⟩

theorem run_inv (d c : String) (s : SupState) (hI : Inv s) : Inv (run d c s) := by
  obtain ⟨h1, h2, h3, h4⟩ := hI
  cases hc : s.current with
  | some p =>
      rw [run_live d c s p hc]
      refine ⟨?_, ?_, ?_, ?_⟩
      · intro r' hr'
        obtain ⟨r, hr, hpid, _, _⟩ := attachListener_mem p _ s.procs r' hr'
        rw [hpid]
        exact h1 r hr
      · rw [show ({ s with
            obs := s.obs ++ [Obs.ev (Ev.output "\n"), Obs.signal p],
            procs := attachListener p (Listener.rerun d c) s.procs } : SupState).procs
          = attachListener p (Listener.rerun d c) s.procs from rfl, attachListener_map_pid]
        exact h2
      · intro r' hr' hal
        obtain ⟨r, hr, hpid, hex, _⟩ := attachListener_mem p _ s.procs r' hr'
        rw [hex] at hal
        rw [hpid]
        exact h3 r hr hal
      · intro r' hr' q hq
        obtain ⟨r, hr, hpid, _, hls⟩ := attachListener_mem p _ s.procs r' hr'
        rcases hls q hq with hin | hl
        · rw [hpid]; exact h4 r hr q hin
        · exact absurd hl (by simp)
  | none =>
      rw [run_idle d c s hc]
      refine ⟨?_, ?_, ?_, ?_⟩
      · intro r hr
        rcases List.mem_append.mp hr with hr | hr
        · exact Nat.lt_succ_of_lt (h1 r hr)
        · rw [List.mem_singleton.mp hr]
          exact Nat.lt_succ_self _
      · rw [show ({ s with
            obs := s.obs ++ [Obs.ev (Ev.log ("Running class " ++ c ++ "..."))],
            procs := s.procs ++ [⟨s.nextPid, d, c, [Listener.clearSlot s.nextPid], false⟩],
            current := some s.nextPid,
            nextPid := s.nextPid + 1 } : SupState).procs
          = s.procs ++ [⟨s.nextPid, d, c, [Listener.clearSlot s.nextPid], false⟩] from rfl]
        rw [List.map_append]
        rw [List.nodup_append]
        refine ⟨h2, List.nodup_singleton _, ?_⟩
        intro x hx hx2
        rcases List.mem_map.mp hx with ⟨r, hr, hpid⟩
        rcases List.mem_singleton.mp (by simpa using hx2) with rfl
        have := h1 r hr
        rw [hpid] at this
        exact absurd this (Nat.lt_irrefl _)
      · intro r hr hal
        rcases List.mem_append.mp hr with hr | hr
        · exact absurd (h3 r hr hal) (by rw [hc]; intro h; cases h)
        · rw [List.mem_singleton.mp hr]
      · intro r hr q hq
        rcases List.mem_append.mp hr with hr | hr
        · exact h4 r hr q hq
        · rw [List.mem_singleton.mp hr] at hq ⊢
          have := List.mem_singleton.mp hq
          injection this

theorem run_dead (d c : String) (p0 : Nat) (s : SupState) (hD : DeadPid p0 s) :
    DeadPid p0 (run d c s) := by
  obtain ⟨hlt, hex⟩ := hD
  cases hc : s.current with
  | some p =>
      rw [run_live d c s p hc]
      refine ⟨hlt, ?_⟩
      intro r' hr' hp
      obtain ⟨r, hr, hpid, hexeq, _⟩ := attachListener_mem p _ s.procs r' hr'
      rw [hexeq]
      exact hex r hr (hpid ▸ hp)
  | none =>
      rw [run_idle d c s hc]
      refine ⟨Nat.lt_succ_of_lt hlt, ?_⟩
      intro r hr hp
      rcases List.mem_append.mp hr with hr | hr
      · exact hex r hr hp
      · rw [List.mem_singleton.mp hr] at hp
        simp only at hp
        omega

theorem runListener_inv_dead (code : Int) (p0 : Nat) (l : Listener) (s : SupState)
    (hI : Inv s) (hD : DeadPid p0 s)
    (hl : ∀ q, l = Listener.clearSlot q → q = p0) :
    Inv (runListener code s l) ∧ DeadPid p0 (runListener code s l) := by
  cases l with
  | rerun dir cls => exact ⟨run_inv dir cls s hI, run_dead dir cls p0 s hD⟩
  | clearSlot q =>
      have hq : q = p0 := hl q rfl
      subst hq
      obtain ⟨h1, h2, h3, h4⟩ := hI
      obtain ⟨hlt, hex⟩ := hD
      simp only [runListener]
      by_cases hc : s.current = some q
      · rw [if_pos hc]
        refine ⟨⟨h1, h2, ?_, h4⟩, hlt, hex⟩
        intro r hr hal
        have hcur := h3 r hr hal
        rw [hc] at hcur
        have hpq : r.pid = q := by injection hcur.symm
        have ht := hex r hr hpq
        rw [hal] at ht
        exact absurd ht (by decide)
      · rw [if_neg hc]
        exact ⟨⟨h1, h2, h3, h4⟩, hlt, hex⟩

theorem foldl_runListener_inv (code : Int) (p0 : Nat) (ls : List Listener) :
    ∀ s : SupState, Inv s → DeadPid p0 s →
      (∀ l ∈ ls, ∀ q, l = Listener.clearSlot q → q = p0) →
      Inv (ls.foldl (runListener code) s) ∧ DeadPid p0 (ls.foldl (runListener code) s) := by
  induction ls with
  | nil => exact fun s hI hD _ => ⟨hI, hD⟩
  | cons l rest ih =>
      intro s hI hD hls
      rw [List.foldl_cons]
      obtain ⟨hI1, hD1⟩ :=
        runListener_inv_dead code p0 l s hI hD (hls l (List.mem_cons_self l rest))
      exact ih _ hI1 hD1 (fun l2 h2 => hls l2 (List.mem_cons_of_mem _ h2))

theorem markExited_map_pid (p : Nat) (procs : List ProcRec) :
    (markExited p procs).map ProcRec.pid = procs.map ProcRec.pid := by
  unfold markExited
  rw [List.map_map]
  apply List.map_congr_left
  intro r _
  by_cases h : r.pid = p <;> simp [h]

theorem markExited_mem (p : Nat) (procs : List ProcRec)
    (r' : ProcRec) (h : r' ∈ markExited p procs) :
    ∃ r ∈ procs, r'.pid = r.pid ∧ r'.listeners = r.listeners ∧
      r'.exited = (if r.pid = p then true else r.exited) := by
  unfold markExited at h
  rcases List.mem_map.mp h with ⟨r, hr, hEq⟩
  refine ⟨r, hr, ?_⟩
  by_cases hp : r.pid = p
  · rw [if_pos hp] at hEq
    subst hEq
    exact ⟨rfl, rfl, by rw [if_pos hp]⟩
  · rw [if_neg hp] at hEq
    subst hEq
    exact ⟨rfl, rfl, by rw [if_neg hp]⟩

theorem fireExit_inv (p : Nat) (code : Int) (s : SupState) (hI : Inv s) :
    Inv (fireExit p code s) := by
  obtain ⟨h1, h2, h3, h4⟩ := hI
  cases hf : s.procs.find? (fun r => r.pid == p) with
  | none =>
      have hgoal : fireExit p code s = s := by unfold fireExit; rw [hf]
      rw [hgoal]
      exact ⟨h1, h2, h3, h4⟩
  | some r =>
      have hmem : r ∈ s.procs := List.mem_of_find?_eq_some hf
      have hbeq := List.find?_some hf
      have hpid : r.pid = p := eq_of_beq hbeq
      have hgoal : fireExit p code s
          = if r.exited = true then s
            else r.listeners.foldl (runListener code)
              { s with procs := markExited p s.procs } := by
        unfold fireExit
        rw [hf]
      rw [hgoal]
      cases hre : r.exited with
      | true => rw [if_pos rfl]; exact ⟨h1, h2, h3, h4⟩
      | false =>
          rw [if_neg Bool.false_ne_true]
          have hI1 : Inv { s with procs := markExited p s.procs } := by
            refine ⟨?_, ?_, ?_, ?_⟩
            · intro r' hr'
              obtain ⟨r0, hr0, hp0, _, _⟩ := markExited_mem p s.procs r' hr'
              rw [hp0]
              exact h1 r0 hr0
            · rw [show ({ s with procs := markExited p s.procs } : SupState).procs
                = markExited p s.procs from rfl, markExited_map_pid]
              exact h2
            · intro r' hr' hal
              obtain ⟨r0, hr0, hp0, _, hex0⟩ := markExited_mem p s.procs r' hr'
              rw [hex0] at hal
              by_cases hcase : r0.pid = p
              · rw [if_pos hcase] at hal; cases hal
              · rw [if_neg hcase] at hal
                rw [hp0]
                exact h3 r0 hr0 hal
            · intro r' hr' q hq
              obtain ⟨r0, hr0, hp0, hls0, _⟩ := markExited_mem p s.procs r' hr'
              rw [hls0] at hq
              rw [hp0]
              exact h4 r0 hr0 q hq
          have hD1 : DeadPid p { s with procs := markExited p s.procs } := by
            refine ⟨hpid ▸ h1 r hmem, ?_⟩
            intro r' hr' hp'
            obtain ⟨r0, hr0, hp0, _, hex0⟩ := markExited_mem p s.procs r' hr'
            rw [hex0]
            rw [if_pos (by rw [← hp0]; exact hp')]
          have hls : ∀ l ∈ r.listeners, ∀ q, l = Listener.clearSlot q → q = p := by
            intro l hlmem q hlq
            subst hlq
            rw [← hpid]
            exact h4 r hmem q hlmem
          exact (foldl_runListener_inv code p r.listeners _ hI1 hD1 hls).1

theorem inv_obs_update (s : SupState) (o : List Obs) (hI : Inv s) :
    Inv { s with obs := o } :=
  ⟨hI.1, hI.2.1, hI.2.2.1, hI.2.2.2⟩

theorem step_inv (s : SupState) (a : Act) (hI : Inv s) : Inv (step s a) := by
  cases a with
  | callRun d c => exact run_inv d c s hI
  | callWrite t =>
      show Inv (writeToStdin t s)
      cases hc : s.current with
      | none =>
          have hgoal : writeToStdin t s = s := by unfold writeToStdin; rw [hc]
          rw [hgoal]; exact hI
      | some p =>
          have hgoal : writeToStdin t s = { s with obs := s.obs ++ [Obs.stdin p t] } := by
            unfold writeToStdin; rw [hc]
          rw [hgoal]; exact inv_obs_update s _ hI
  | callKill =>
      show Inv (killProcess s)
      cases hc : s.current with
      | none =>
          have hgoal : killProcess s = s := by unfold killProcess; rw [hc]
          rw [hgoal]; exact hI
      | some p =>
          have hgoal : killProcess s
              = { s with obs := s.obs ++ [Obs.ev (Ev.output "\n"), Obs.signal p] } := by
            unfold killProcess; rw [hc]
          rw [hgoal]; exact inv_obs_update s _ hI
  | procExit p code => exact fireExit_inv p code s hI

theorem exec_inv (acts : List Act) : Inv (exec acts) := by
  have hinit : Inv initState := by
    refine ⟨?_, ?_, ?_, ?_⟩ <;> simp [initState]
  unfold exec
  induction acts using List.reverseRecOn with
  | nil => exact hinit
  | append_singleton acts a ih =>
      rw [List.foldl_append, List.foldl_cons, List.foldl_nil]
      exact step_inv _ a ih

theorem compileFiles_fail (javac : Javac) (files : List String) (out : String)
    (s : CState) (hlen : ¬ files.length = 0) (fs3 : List (String × List String))
    (stderr : String)
    (hj : javac files out (emptyDir out (createDir out s.fs)) = (fs3, some stderr)) :
    compileFiles javac files out s
      = (false, ⟨fs3, (s.events ++ [Ev.log "Compiling..."]) ++ [Ev.error stderr]⟩) := by
  simp only [compileFiles, if_neg hlen]
  rw [hj]

theorem compileFiles_ok (javac : Javac) (files : List String) (out : String)
    (s : CState) (hlen : ¬ files.length = 0) (fs3 : List (String × List String))
    (hj : javac files out (emptyDir out (createDir out s.fs)) = (fs3, none)) :
    compileFiles javac files out s
      = (true, ⟨fs3, (s.events ++ [Ev.log "Compiling..."]) ++ [Ev.log "Done."]⟩) := by
  simp only [compileFiles, if_neg hlen]
  rw [hj]

/-! ## Claims -/

/-- C1 (counterexample): the claim says that after two `run` calls in
quick succession during one live process only the *last* requested pair
is launched when the current process exits, the earlier pending request
being discarded.  The code instead attaches one `rerun` exit listener
per call: in the trace run(A); run(B); run(C); exit-of-A, the earlier
pending pair B *is* launched (and at that point C is not): the processes
spawned so far are exactly A and B, and the record running class B is
live. -/
theorem claim_C1_counterexample :
    ((exec [Act.callRun "/p" "A", Act.callRun "/p" "B", Act.callRun "/p" "C",
        Act.procExit 0 0]).procs.map ProcRec.cls = ["A", "B"])
    ∧ (∃ r ∈ (exec [Act.callRun "/p" "A", Act.callRun "/p" "B", Act.callRun "/p" "C",
        Act.procExit 0 0]).procs, r.cls = "B" ∧ r.exited = false) := by
  constructor
  · rfl
  · exact ⟨⟨1, "/p", "B", [Listener.clearSlot 1, Listener.rerun "/p" "C"], false⟩,
      by decide, rfl, rfl⟩

/-- C1 (amended): a `run` call made while a process is live queues an
additional `rerun` exit listener on the current process rather than
overwriting a single pending pair.  After run(d0,c0) is live and
run(d1,c1) then run(d2,c2) arrive, the old process's exit launches the
*first* queued pair (d1,c1) — the earlier request is not discarded — and
the second request immediately re-queues on (and signals) that new
process; (d2,c2) is launched only after the (d1,c1) process in turn
exits. -/
theorem claim_C1_amended (d0 d1 d2 c0 c1 c2 : String) (code1 code2 : Int) :
    ((exec [Act.callRun d0 c0, Act.callRun d1 c1, Act.callRun d2 c2,
        Act.procExit 0 code1]).procs.map ProcRec.cls = [c0, c1])
    ∧ ((exec [Act.callRun d0 c0, Act.callRun d1 c1, Act.callRun d2 c2,
        Act.procExit 0 code1]).procs.map ProcRec.dir = [d0, d1])
    ∧ ((exec [Act.callRun d0 c0, Act.callRun d1 c1, Act.callRun d2 c2,
        Act.procExit 0 code1]).current = some 1)
    ∧ ((exec [Act.callRun d0 c0, Act.callRun d1 c1, Act.callRun d2 c2,
        Act.procExit 0 code1, Act.procExit 1 code2]).procs.map ProcRec.cls = [c0, c1, c2])
    ∧ ((exec [Act.callRun d0 c0, Act.callRun d1 c1, Act.callRun d2 c2,
        Act.procExit 0 code1, Act.procExit 1 code2]).procs.map ProcRec.dir = [d0, d1, d2])
    ∧ ((exec [Act.callRun d0 c0, Act.callRun d1 c1, Act.callRun d2 c2,
        Act.procExit 0 code1, Act.procExit 1 code2]).current = some 2) :=
  ⟨rfl, rfl, rfl, rfl, rfl, rfl⟩

/-- C2: the spawn-time exit listener clears the `currentProcess` slot
exactly when the exiting process is still the one recorded as current
(source lines 113-120), and on any reachable state an exit notification
for a process that is not the current one leaves the newer handle
untouched. -/
theorem claim_C2 (p q : Nat) (code : Int) (s : SupState) (acts : List Act) :
    (s.current = some p →
      (runListener code s (Listener.clearSlot p)).current = none)
    ∧ (s.current ≠ some p →
      (runListener code s (Listener.clearSlot p)).current = s.current)
    ∧ ((exec acts).current = some q → p ≠ q →
      (fireExit p code (exec acts)).current = some q) := by
  refine ⟨?_, ?_, ?_⟩
  · intro h
    simp only [runListener]
    rw [if_pos h]
  · intro h
    simp only [runListener]
    rw [if_neg h]
  · intro hcur hpq
    obtain ⟨h1, h2, h3, h4⟩ := exec_inv acts
    cases hf : (exec acts).procs.find? (fun r => r.pid == p) with
    | none =>
        have hgoal : fireExit p code (exec acts) = exec acts := by
          unfold fireExit; rw [hf]
        rw [hgoal, hcur]
    | some r =>
        have hmem : r ∈ (exec acts).procs := List.mem_of_find?_eq_some hf
        have hbeq := List.find?_some hf
        have hpid : r.pid = p := eq_of_beq hbeq
        cases hre : r.exited with
        | false =>
            have hc2 := h3 r hmem hre
            rw [hcur, hpid] at hc2
            have : q = p := by injection hc2
            exact absurd this.symm hpq
        | true =>
            have hgoal : fireExit p code (exec acts)
                = if r.exited = true then exec acts
                  else r.listeners.foldl (runListener code)
                    { exec acts with procs := markExited p (exec acts).procs } := by
              unfold fireExit; rw [hf]
            rw [hgoal, if_pos hre, hcur]

/-- C3: the supervisor never holds two live processes — on every
reachable state all non-exited process records coincide — and a `run`
call made while a process is live spawns nothing synchronously: the
process list's length and the fresh-pid counter are unchanged (source
lines 84-91 signal, attach a listener and return without calling
`child_process.exec`). -/
theorem claim_C3 (acts : List Act) (d c : String) (p : Nat) :
    (∀ r1 ∈ (exec acts).procs, ∀ r2 ∈ (exec acts).procs,
      r1.exited = false → r2.exited = false → r1 = r2)
    ∧ ((exec acts).current = some p →
      (run d c (exec acts)).procs.length = (exec acts).procs.length
      ∧ (run d c (exec acts)).nextPid = (exec acts).nextPid) := by
  obtain ⟨h1, h2, h3, h4⟩ := exec_inv acts
  constructor
  · intro r1 hm1 r2 hm2 ha1 ha2
    have e1 := h3 r1 hm1 ha1
    have e2 := h3 r2 hm2 ha2
    rw [e1] at e2
    have hpp : r1.pid = r2.pid := by injection e2
    exact List.inj_on_of_nodup_map h2 hm1 hm2 hpp
  · intro hc
    rw [run_live d c _ p hc]
    constructor
    · show (attachListener p (Listener.rerun d c) (exec acts).procs).length = _
      unfold attachListener
      simp
    · rfl

/-- C4: `compileFiles` called with an empty file list fails synchronously
(source lines 18-19 return `false` before any side effect): the state —
filesystem and emitted events — is returned unchanged. -/
theorem claim_C4 (javac : Javac) (outputPath : String) (s : CState) :
    compileFiles javac [] outputPath s = (false, s) := rfl

/-- C5: on a non-empty file list, `compileFiles` first ensures the output
directory exists (tolerating an already-exists failure) and then removes
every entry inside it while leaving the directory itself in place, before
invoking the compiler: the prepared filesystem maps the output directory
to an empty entry list, leaves every other directory untouched, and is
exactly the filesystem the `javac` collaborator is invoked on. -/
theorem claim_C5 (javac : Javac) (filePaths : List String) (outputPath : String)
    (s : CState) (h : filePaths ≠ []) :
    fsLookup outputPath (emptyDir outputPath (createDir outputPath s.fs)) = some []
    ∧ (∀ d, d ≠ outputPath →
      fsLookup d (emptyDir outputPath (createDir outputPath s.fs)) = fsLookup d s.fs)
    ∧ (compileFiles javac filePaths outputPath s).2.fs
      = (javac filePaths outputPath (emptyDir outputPath (createDir outputPath s.fs))).1 := by
  have hlen : ¬ filePaths.length = 0 := fun h0 => h (List.length_eq_zero.mp h0)
  refine ⟨fsLookup_prepared _ _, ?_, ?_⟩
  · intro d hd
    rw [fsLookup_emptyDir_other d outputPath hd, fsLookup_createDir_other d outputPath hd]
  · rcases hj : javac filePaths outputPath (emptyDir outputPath (createDir outputPath s.fs))
      with ⟨fs3, o⟩
    cases o with
    | none => rw [compileFiles_ok javac filePaths outputPath s hlen fs3 hj]
    | some stderr => rw [compileFiles_fail javac filePaths outputPath s hlen fs3 stderr hj]

/-- C5 witness: a concrete non-empty compile on an empty filesystem with
an always-succeeding compiler. -/
theorem claim_C5_witness :
    (["Main.java"] : List String) ≠ []
    ∧ (fsLookup "out" (emptyDir "out" (createDir "out" [])) = some []
      ∧ (∀ d, d ≠ "out" →
        fsLookup d (emptyDir "out" (createDir "out" [])) = fsLookup d [])
      ∧ (compileFiles (fun _ _ fs => (fs, none)) ["Main.java"] "out" ⟨[], []⟩).2.fs
        = [("out", [])]) :=
  ⟨by decide, claim_C5 (fun _ _ fs => (fs, none)) ["Main.java"] "out" ⟨[], []⟩ (by decide)⟩

/-- C6: with a non-empty file list, a non-zero compiler exit makes
`compileFiles` emit exactly one "error" event carrying the compiler's
error-stream text and return failure, while a zero exit makes it emit the
"Done." log notification and return success (source lines 27-37). -/
theorem claim_C6 (javac : Javac) (filePaths : List String) (outputPath : String)
    (s : CState) (h : filePaths ≠ []) :
    (∀ fs3 stderr,
      javac filePaths outputPath (emptyDir outputPath (createDir outputPath s.fs))
        = (fs3, some stderr) →
      compileFiles javac filePaths outputPath s
        = (false, ⟨fs3, s.events ++ [Ev.log "Compiling...", Ev.error stderr]⟩))
    ∧ (∀ fs3,
      javac filePaths outputPath (emptyDir outputPath (createDir outputPath s.fs))
        = (fs3, none) →
      compileFiles javac filePaths outputPath s
        = (true, ⟨fs3, s.events ++ [Ev.log "Compiling...", Ev.log "Done."]⟩)) := by
  have hlen : ¬ filePaths.length = 0 := fun h0 => h (List.length_eq_zero.mp h0)
  constructor
  · intro fs3 stderr hj
    rw [compileFiles_fail javac filePaths outputPath s hlen fs3 stderr hj,
      List.append_assoc]
    rfl
  · intro fs3 hj
    rw [compileFiles_ok javac filePaths outputPath s hlen fs3 hj, List.append_assoc]
    rfl

/-- C6 witness: one concrete failing compile (stderr surfaced as the sole
error event, result `false`) and one concrete succeeding compile ("Done."
logged, result `true`). -/
theorem claim_C6_witness :
    compileFiles (fun _ _ fs => (fs, some "Bad.java:1: error")) ["Bad.java"] "out" ⟨[], []⟩
      = (false, ⟨[("out", [])], [Ev.log "Compiling...", Ev.error "Bad.java:1: error"]⟩)
    ∧ compileFiles (fun _ _ fs => (fs, none)) ["Main.java"] "out" ⟨[], []⟩
      = (true, ⟨[("out", [])], [Ev.log "Compiling...", Ev.log "Done."]⟩) :=
  ⟨(claim_C6 (fun _ _ fs => (fs, some "Bad.java:1: error")) ["Bad.java"] "out" ⟨[], []⟩
      (by decide)).1 [("out", [])] "Bad.java:1: error" rfl,
   (claim_C6 (fun _ _ fs => (fs, none)) ["Main.java"] "out" ⟨[], []⟩
      (by decide)).2 [("out", [])] rfl⟩

/-- C7: `killProcess` called while no process is running is a complete
no-op — no event, no signal, no error: the state is returned unchanged
(source lines 144-145). -/
theorem claim_C7 (s : SupState) (h : s.current = none) : killProcess s = s := by
  unfold killProcess
  rw [h]

/-- C7 witness: terminating in the initial (idle) state. -/
theorem claim_C7_witness : killProcess initState = initState :=
  claim_C7 initState rfl

/-- C8: `killProcess` called while a process is live emits an "output"
event carrying a single newline, then requests a kill signal for that
process, and changes nothing else — in particular the current-process
handle and the process records are untouched (source lines 143-156). -/
theorem claim_C8 (s : SupState) (p : Nat) (h : s.current = some p) :
    killProcess s
      = { s with obs := s.obs ++ [Obs.ev (Ev.output "\n"), Obs.signal p] } := by
  unfold killProcess
  rw [h]

/-- C8 witness: terminating right after a concrete launch. -/
theorem claim_C8_witness :
    killProcess (exec [Act.callRun "/tmp/proj" "Main"])
      = { exec [Act.callRun "/tmp/proj" "Main"] with
          obs := (exec [Act.callRun "/tmp/proj" "Main"]).obs
            ++ [Obs.ev (Ev.output "\n"), Obs.signal 0] } :=
  claim_C8 (exec [Act.callRun "/tmp/proj" "Main"]) 0 rfl

/-- C9: `writeToStdin` is a no-op (not an error) when no process is
running, and when a process is running it appends exactly the given
text, unaltered, to that process's stdin stream (source lines 132-137). -/
theorem claim_C9 (input : String) (s : SupState) (p : Nat) :
    (s.current = none → writeToStdin input s = s)
    ∧ (s.current = some p →
      writeToStdin input s = { s with obs := s.obs ++ [Obs.stdin p input] }) := by
  constructor
  · intro h
    unfold writeToStdin
    rw [h]
  · intro h
    unfold writeToStdin
    rw [h]

/-- C9 witness: a write while idle and a write to a concrete running
process. -/
theorem claim_C9_witness :
    writeToStdin "x" initState = initState
    ∧ writeToStdin "some input\n" (exec [Act.callRun "/p" "Main"])
      = { exec [Act.callRun "/p" "Main"] with
          obs := (exec [Act.callRun "/p" "Main"]).obs ++ [Obs.stdin 0 "some input\n"] } :=
  ⟨(claim_C9 "x" initState 0).1 rfl,
   (claim_C9 "some input\n" (exec [Act.callRun "/p" "Main"]) 0).2 rfl⟩

/-- C10: a `run` call made while a process is live returns with the
current-process handle unchanged, having observed only the embedded
termination request — the single newline "output" event followed by the
kill-signal request — and in particular no "Running class" log; the
fresh-pid counter is also unchanged, so no launch happened (source lines
84-91). -/
theorem claim_C10 (d c : String) (s : SupState) (p : Nat) (h : s.current = some p) :
    (run d c s).current = s.current
    ∧ (run d c s).obs = s.obs ++ [Obs.ev (Ev.output "\n"), Obs.signal p]
    ∧ (run d c s).nextPid = s.nextPid := by
  rw [run_live d c s p h]
  exact ⟨rfl, rfl, rfl⟩

/-- C10 witness: a second `run` issued while a concrete process is
live. -/
theorem claim_C10_witness :
    (run "/q" "B" (exec [Act.callRun "/p" "A"])).current
      = (exec [Act.callRun "/p" "A"]).current
    ∧ (run "/q" "B" (exec [Act.callRun "/p" "A"])).obs
      = (exec [Act.callRun "/p" "A"]).obs ++ [Obs.ev (Ev.output "\n"), Obs.signal 0]
    ∧ (run "/q" "B" (exec [Act.callRun "/p" "A"])).nextPid
      = (exec [Act.callRun "/p" "A"]).nextPid :=
  claim_C10 "/q" "B" (exec [Act.callRun "/p" "A"]) 0 rfl

/-- C2 witness: the guard clears at a concrete matching state, preserves
the slot for a non-matching pid, and a whole exit notification for the
superseded process 0 leaves the newer handle (process 1) in place. -/
theorem claim_C2_witness :
    ((runListener 0 (exec [Act.callRun "/p" "Main"]) (Listener.clearSlot 0)).current = none)
    ∧ ((runListener 0 (exec [Act.callRun "/p" "Main"]) (Listener.clearSlot 7)).current
      = (exec [Act.callRun "/p" "Main"]).current)
    ∧ ((fireExit 0 0 (exec [Act.callRun "/p" "A", Act.callRun "/p" "B",
        Act.procExit 0 0])).current = some 1) :=
  ⟨(claim_C2 0 1 0 (exec [Act.callRun "/p" "Main"]) []).1 rfl,
   (claim_C2 7 1 0 (exec [Act.callRun "/p" "Main"]) []).2.1 (by decide),
   (claim_C2 0 1 0 initState
      [Act.callRun "/p" "A", Act.callRun "/p" "B", Act.procExit 0 0]).2.2 rfl (by decide)⟩

/-- C3 witness: on a concrete reachable state with one exited and one
live record, the live record is unique, and a `run` while live adds no
process and allocates no pid. -/
theorem claim_C3_witness :
    ((⟨1, "/p", "B", [Listener.clearSlot 1], false⟩ : ProcRec)
      = ⟨1, "/p", "B", [Listener.clearSlot 1], false⟩)
    ∧ ((run "/p" "C" (exec [Act.callRun "/p" "A", Act.callRun "/p" "B",
          Act.procExit 0 0])).procs.length
        = (exec [Act.callRun "/p" "A", Act.callRun "/p" "B", Act.procExit 0 0]).procs.length
      ∧ (run "/p" "C" (exec [Act.callRun "/p" "A", Act.callRun "/p" "B",
          Act.procExit 0 0])).nextPid
        = (exec [Act.callRun "/p" "A", Act.callRun "/p" "B", Act.procExit 0 0]).nextPid) :=
  ⟨(claim_C3 [Act.callRun "/p" "A", Act.callRun "/p" "B", Act.procExit 0 0] "/p" "C" 1).1
      ⟨1, "/p", "B", [Listener.clearSlot 1], false⟩ (by decide)
      ⟨1, "/p", "B", [Listener.clearSlot 1], false⟩ (by decide) rfl rfl,
   (claim_C3 [Act.callRun "/p" "A", Act.callRun "/p" "B", Act.procExit 0 0] "/p" "C" 1).2 rfl⟩

end BracketsJdk
